import Mathlib

/-!
Verification of the Mutamers gene module (gaudi/genes/mutamers.py).

The Python class is embedded shallowly: machine floats produced by
random.random() are modelled as rationals, the global random stream is an
explicit function from draw indices to rationals together with a running
draw counter, the OrderedDict of residues is an association list preserving
insertion order, and the shared boltons LRU cache is a capacity plus a
most-recent-first entry list.  Fallible operations return Except.
-/

namespace Gaudi

/-- Python int() conversion applied to a float: truncation toward zero.
Every use in the module applies it to a nonnegative product. -/
def pyInt (q : ℚ) : ℤ := if 0 ≤ q then ⌊q⌋ else ⌈q⌉

/-- Key of the residues OrderedDict: the (molecule name, residue position) pair. -/
abbrev ResKey := String × Int

/-- Key of the rotamers LRU cache: (molecule, position, residue type). -/
abbrev RotKey := String × Int × String

/-- Opaque identifier standing for one rotamer object returned by the external
Rotamers.getRotamers provider. -/
abbrev Rot := Nat

/-- A chimera residue, reduced to the one attribute the gene reads: its type code. -/
structure Residue where
  type : String
deriving DecidableEq, Repr

/-- Modelled from the spec: the external bounded cache (boltons.cacheutils.LRU),
which src/ only constructs and indexes.  Entries are kept most-recent-first;
puts insert at the front and evict from the back once the capacity is reached. -/
structure LRU where
  capacity : ℤ
  entries : List (RotKey × List Rot)
deriving DecidableEq, Repr

/-- Cache read: find the value stored under a key, if any. -/
def LRU.lookup (c : LRU) (k : RotKey) : Option (List Rot) :=
  (c.entries.find? (fun e => e.1 = k)).map (fun e => e.2)

/-- A successful cache read refreshes the recency of the entry (move to front). -/
def LRU.touch (c : LRU) (k : RotKey) : LRU :=
  match c.entries.find? (fun e => e.1 = k) with
  | none => c
  | some e => { c with entries := e :: c.entries.filter (fun e2 => ¬ e2.1 = k) }

/-- Cache write: insert at the front, dropping the least recently used entries
beyond the fixed capacity. -/
def LRU.put (c : LRU) (k : RotKey) (v : List Rot) : LRU :=
  { c with entries :=
      (k, v) :: (c.entries.filter (fun e => ¬ e.1 = k)).take (c.capacity.toNat - 1) }

/-- The float expression len(residues) * (1 + 0.5 * len(mutations)) from
Mutamers.__init__ (exact in binary floating point for realistic sizes, hence
modelled in ℚ). -/
def cache_size (residue_count mutation_count : ℕ) : ℚ :=
  (residue_count : ℚ) * (1 + (1 / 2) * (mutation_count : ℚ))

/-- Capacity passed to LRU(...) in Mutamers.__init__: int(cache_size). -/
def lru_capacity (residue_count mutation_count : ℕ) : ℤ :=
  pyInt (cache_size residue_count mutation_count)

/-- State of one Mutamers gene instance.  Field residues_arg is the raw
_residues list of (molecule, position) specs kept by __init__; residues is the
OrderedDict of resolved residues, as an insertion-ordered association list. -/
structure Mutamers where
  residues_arg : List ResKey
  library : String
  avoid_replacement : Bool
  mutations : List String
  ligation : Bool
  hydrogens : Bool
  indpb : ℚ
  residues : List (ResKey × Residue)
  allele : List (String × ℚ)
  random_number : Option ℚ
  residues_without_rotamers : List String
  rotamers : LRU
deriving DecidableEq, Repr

/-- Mutamers.__init__, in the branch where the instance name is new so that a
fresh residue table and a fresh LRU rotamer cache are created.  The field indpb
is the mutation probability stored on self by the GeneProvider base class from
the keyword arguments.  When ligation is on, one random number is drawn and
stored; otherwise random_number is None. -/
def Mutamers.init (residues_arg : List ResKey) (library : String)
    (avoid_replacement : Bool) (mutations : List String) (ligation : Bool)
    (hydrogens : Bool) (indpb : ℚ) (rng : ℕ → ℚ) (k : ℕ) : Mutamers × ℕ :=
  let rn : Option ℚ × ℕ := if ligation then (some (rng k), k + 1) else (none, k)
  ({ residues_arg := residues_arg, library := library,
     avoid_replacement := avoid_replacement, mutations := mutations,
     ligation := ligation, hydrogens := hydrogens, indpb := indpb,
     residues := [], allele := [],
     random_number := rn.1,
     residues_without_rotamers := ["ALA", "GLY"],
     rotamers := { capacity := lru_capacity residues_arg.length mutations.length,
                   entries := [] } }, rn.2)

/-- Mutamers.choice: reuse the stored random number when it is truthy (Python
treats None and 0.0 as falsy), otherwise consume a fresh draw.  The selected
element is l[int(r * len(l))]. -/
def choice (random_number : Option ℚ) (l : List String) (rng : ℕ → ℚ) (k : ℕ) :
    String × ℕ :=
  match random_number with
  | some r =>
      if r = 0 then (l.getD (pyInt (rng k * l.length)).toNat "", k + 1)
      else (l.getD (pyInt (r * l.length)).toNat "", k)
  | none => (l.getD (pyInt (rng k * l.length)).toNat "", k + 1)

/-- The allele-building loop body shared by __ready__ and mutate: for each
residue, append (choice(mutations + [res.type]), random.random()). -/
def appendEntries (rn : Option ℚ) (mutations : List String) (ress : List Residue)
    (allele : List (String × ℚ)) (rng : ℕ → ℚ) (k : ℕ) :
    List (String × ℚ) × ℕ :=
  match ress with
  | [] => (allele, k)
  | res :: rest =>
      let t := choice rn (mutations ++ [res.type]) rng k
      appendEntries rn mutations rest (allele ++ [(t.1, rng t.2)]) rng (t.2 + 1)

/-- Mutamers.mutate.  The comparison random.random() < self.indpb reads the
stored attribute, not the indpb argument, which the body never uses.  On
success the allele is emptied and rebuilt from the residue table, redrawing the
shared random number first when ligation is on. -/
def Mutamers.mutate (m : Mutamers) (indpb : ℚ) (rng : ℕ → ℚ) (k : ℕ) :
    Mutamers × ℕ :=
  if rng k < m.indpb then
    let rn : Option ℚ × ℕ :=
      if m.ligation then (some (rng (k + 1)), k + 2) else (m.random_number, k + 1)
    let res := appendEntries rn.1 m.mutations (m.residues.map (fun kv => kv.2))
      [] rng rn.2
    ({ m with allele := res.1, random_number := rn.1 }, res.2)
  else (m, k + 1)

/-- Assignment self.residues[(molecule, resid)] = res on the OrderedDict:
updating an existing key keeps its position, a new key is appended at the end. -/
def odInsert (k : ResKey) (v : Residue) (d : List (ResKey × Residue)) :
    List (ResKey × Residue) :=
  if d.any (fun kv => kv.1 = k) then
    d.map (fun kv => if kv.1 = k then (k, v) else kv)
  else d ++ [(k, v)]

/-- Inner loop of Mutamers.__ready__ over the residues that one
(molecule, resid) spec resolves to: store the residue in the table and append
one allele entry for it. -/
def readyInner (spec : ResKey) (ress : List Residue) (m : Mutamers)
    (rng : ℕ → ℚ) (k : ℕ) : Mutamers × ℕ :=
  match ress with
  | [] => (m, k)
  | res :: rest =>
      let m1 := { m with residues := odInsert spec res m.residues }
      let t := choice m1.random_number (m1.mutations ++ [res.type]) rng k
      let m2 := { m1 with allele := m1.allele ++ [(t.1, rng t.2)] }
      readyInner spec rest m2 rng (t.2 + 1)

/-- Outer loop of Mutamers.__ready__ over the requested specs. -/
def readyOuter (env : ResKey → List Residue) (specs : List ResKey) (m : Mutamers)
    (rng : ℕ → ℚ) (k : ℕ) : Mutamers × ℕ :=
  match specs with
  | [] => (m, k)
  | spec :: rest =>
      let r := readyInner spec (env spec) m rng k
      readyOuter env rest r.1 rng r.2

/-- Mutamers.__ready__: env models
parent.find_molecule(molecule).find_residues(resid). -/
def Mutamers.ready (m : Mutamers) (env : ResKey → List Residue) (rng : ℕ → ℚ)
    (k : ℕ) : Mutamers × ℕ :=
  readyOuter env m.residues_arg m rng k

/-- Modelled from the spec: the crossover-point adjustment of the external
deap.tools.cxTwoPoint operator.  Two draws p1 from [1, size] and p2 from
[1, size - 1] are turned into an ordered pair of cut points. -/
def cxPoints (p1 p2 : ℕ) : ℕ × ℕ :=
  if p1 ≤ p2 then (p1, p2 + 1) else (p2, p1)

/-- Modelled from the spec: the external deap.tools.cxTwoPoint operator, with
the two raw random points passed explicitly.  The slices between the adjusted
cut points are exchanged between the two sequences in place. -/
def cxTwoPoint (l1 l2 : List α) (p1 p2 : ℕ) : List α × List α :=
  let c := cxPoints p1 p2
  (l1.take c.1 ++ (l2.drop c.1).take (c.2 - c.1) ++ l1.drop c.2,
   l2.take c.1 ++ (l1.drop c.1).take (c.2 - c.1) ++ l2.drop c.2)

/-- Mutamers.mate.  With ligation the two alleles are split into the parallel
type and selector sequences, the two-point crossover runs on the selector
sequences only, and the pairs are zipped back; without ligation the crossover
runs directly on the two allele sequences. -/
def Mutamers.mate (m other : Mutamers) (p1 p2 : ℕ) : Mutamers × Mutamers :=
  if m.ligation then
    let sr := m.allele.map Prod.fst
    let ss := m.allele.map Prod.snd
    let mr := other.allele.map Prod.fst
    let ms := other.allele.map Prod.snd
    let c := cxTwoPoint ss ms p1 p2
    ({ m with allele := sr.zip c.1 }, { other with allele := mr.zip c.2 })
  else
    let c := cxTwoPoint m.allele other.allele p1 p2
    ({ m with allele := c.1 }, { other with allele := c.2 })

/-- Mutamers.get_rotamers.  The provider argument models the external
Rotamers.getRotamers call, returning none where the library raises
NoResidueRotamersError.  The Bool result records whether the provider was
invoked.  The hydrogen post-processing mutates the returned candidate objects
in place and does not change the stored list, so it is not modelled. -/
def Mutamers.get_rotamers (m : Mutamers) (provider : RotKey → Option (List Rot))
    (mol : String) (pos : Int) (restype : String) :
    Except Unit (List Rot) × Mutamers × Bool :=
  if restype ∈ m.residues_without_rotamers then (Except.error (), m, false)
  else
    match m.rotamers.lookup (mol, pos, restype) with
    | some rots =>
        (Except.ok rots, { m with rotamers := m.rotamers.touch (mol, pos, restype) },
         false)
    | none =>
        match provider (mol, pos, restype) with
        | none =>
            (Except.error (),
             { m with residues_without_rotamers :=
                m.residues_without_rotamers ++ [restype] }, true)
        | some rots =>
            (Except.ok rots,
             { m with rotamers := m.rotamers.put (mol, pos, restype) rots }, true)

/-- From Mutamers.express: rotamer_index = int(i * len(rotamer)). -/
def rotamer_index (i : ℚ) (n : ℕ) : ℤ := pyInt (i * (n : ℚ))

/-- From Mutamers.express: the candidate picked as rotamer[rotamer_index],
returning none exactly when the index is out of bounds. -/
def expressChoose (rotamer : List Rot) (i : ℚ) : Option Rot :=
  rotamer.get? (rotamer_index i rotamer.length).toNat

/-- The element of mutations + [res.type] selected by a truthy stored random
number r, namely (mutations + [res.type])[int(r * len)]. -/
def pickShared (r : ℚ) (mutations : List String) (res : Residue) : String :=
  (mutations ++ [res.type]).getD
    (pyInt (r * ((mutations ++ [res.type]).length : ℚ))).toNat ""

/-- Specification-side description of the allele built under an active shared
random number r: one entry per residue whose type is indexed by the shared
value and whose selector is the next independent fresh draw. -/
def sharedEntries (r : ℚ) (mutations : List String) (ress : List Residue)
    (rng : ℕ → ℚ) (k : ℕ) : List (String × ℚ) :=
  match ress with
  | [] => []
  | res :: rest =>
      (pickShared r mutations res, rng k) :: sharedEntries r mutations rest rng (k + 1)

/-- Heap of mutable Python objects reachable from a Mutamers instance, for the
reference-semantics analysis of __deepcopy__: the allele lists and the
_residues_without_rotamers lists, addressed by allocation index. -/
structure Heap where
  alleles : List (List (String × ℚ))
  norots : List (List String)
deriving DecidableEq, Repr

/-- A Mutamers instance viewed through its references into the heap; the
residue table and rotamer cache are opaque shared objects tracked only by
their identity. -/
structure MutamersRef where
  ligation : Bool
  alleleRef : ℕ
  norotRef : ℕ
  residuesRef : ℕ
  rotamersRef : ℕ
  random_number : Option ℚ
deriving DecidableEq, Repr

/-- Dereference an allele list. -/
def Heap.readAllele (h : Heap) (r : ℕ) : List (String × ℚ) := h.alleles.getD r []

/-- Dereference a _residues_without_rotamers list. -/
def Heap.readNorot (h : Heap) (r : ℕ) : List String := h.norots.getD r []

/-- In-place replacement of the list object behind an allele reference (what a
slice assignment or rebuild through the same reference does). -/
def Heap.setAllele (h : Heap) (r : ℕ) (v : List (String × ℚ)) : Heap :=
  { h with alleles := h.alleles.set r v }

/-- In-place append to the list object behind a _residues_without_rotamers
reference (what get_rotamers does on a provider miss). -/
def Heap.appendNorot (h : Heap) (r : ℕ) (s : String) : Heap :=
  { h with norots := h.norots.set r (h.readNorot r ++ [s]) }

/-- Mutamers.__deepcopy__ under explicit reference semantics.  The constructor
call first allocates a fresh empty allele and a fresh seeded
_residues_without_rotamers list for the clone (and consumes one random draw
when ligation is on); the attribute assignments then rebind them:
new.allele = self.allele[:] allocates a copy of the original list, while
new.residues, new.rotamers and new._residues_without_rotamers are plain
reference assignments to the originals. -/
def deepcopyMutamers (h : Heap) (o : MutamersRef) (rng : ℕ → ℚ) (k : ℕ) :
    Heap × MutamersRef × ℕ :=
  let h1 : Heap := { alleles := h.alleles ++ [[]],
                     norots := h.norots ++ [["ALA", "GLY"]] }
  let k1 := if o.ligation then k + 1 else k
  let copyRef := h1.alleles.length
  let h2 : Heap := { h1 with alleles := h1.alleles ++ [h.readAllele o.alleleRef] }
  (h2,
   { ligation := o.ligation, alleleRef := copyRef, norotRef := o.norotRef,
     residuesRef := o.residuesRef, rotamersRef := o.rotamersRef,
     random_number := o.random_number }, k1)

/-- Random stream for the concrete ligation run: draw 0 (consumed by the
constructor) is 1/2, later draws are 3/8, 5/8, 7/8, ... -/
def rngC1 : ℕ → ℚ := fun i => if i = 0 then 1 / 2 else (2 * i + 1) / 8

/-- Environment resolving molecule A, position 1 to a LYS residue and
position 2 to a HIS residue. -/
def envC1 : ResKey → List Residue := fun s =>
  if s = ("A", 1) then [⟨"LYS"⟩] else if s = ("A", 2) then [⟨"HIS"⟩] else []

/-- A ligation-enabled instance over those two residues with one configured
mutation type, built by the constructor from the stream rngC1. -/
def mutC1 : Mutamers :=
  (Mutamers.init [("A", 1), ("A", 2)] "Dunbrack" false ["SER"] true false 0
    rngC1 0).1

/-- An instance whose stored mutation probability is 0, holding one resolved
LYS residue and a one-entry allele whose type GLY is not among the candidate
types a regeneration could produce. -/
def mutC2 : Mutamers :=
  { residues_arg := [("A", 1)], library := "Dunbrack", avoid_replacement := false,
    mutations := [], ligation := false, hydrogens := false, indpb := 0,
    residues := [(("A", 1), ⟨"LYS"⟩)], allele := [("GLY", 1 / 2)],
    random_number := none, residues_without_rotamers := ["ALA", "GLY"],
    rotamers := { capacity := 1, entries := [] } }

/-- Environment resolving molecule A, position 1 to a single LYS residue. -/
def envC3 : ResKey → List Residue := fun s =>
  if s = ("A", 1) then [⟨"LYS"⟩] else []

/-- An instance constructed with the same residue spec listed twice. -/
def mutC3 : Mutamers :=
  (Mutamers.init [("A", 1), ("A", 1)] "Dunbrack" false [] false false 0
    (fun _ => 0) 0).1

/-- A parent instance with three resolved residues and a matching three-entry
allele, for concrete crossover runs. -/
def mutP1 : Mutamers := { mutC2 with
  allele := [("A", 0), ("B", 0), ("C", 0)]
  residues := [(("A", 1), ⟨"LYS"⟩), (("A", 2), ⟨"HIS"⟩), (("A", 3), ⟨"SER"⟩)] }

/-- A second such parent with different allele entries. -/
def mutP2 : Mutamers := { mutC2 with
  allele := [("D", 0), ("E", 0), ("F", 0)]
  residues := [(("A", 1), ⟨"LYS"⟩), (("A", 2), ⟨"HIS"⟩), (("A", 3), ⟨"SER"⟩)] }

/-- A ligation instance with a stored probability of 1/2 and one resolved
residue, for a concrete mutate run. -/
def mutLig : Mutamers := { mutC1 with
  indpb := 1 / 2
  residues := [(("A", 1), ⟨"LYS"⟩)] }

/-- Random stream for the concrete mutate run: every draw is 1/4. -/
def rngL : ℕ → ℚ := fun _ => 1 / 4

/-- A one-object heap: allele list at address 0, no-rotamer list at address 0. -/
def heapC9 : Heap := { alleles := [[("GLY", 1 / 2)]], norots := [["ALA", "GLY"]] }

/-- The instance owning those two lists. -/
def refC9 : MutamersRef :=
  { ligation := false, alleleRef := 0, norotRef := 0, residuesRef := 0,
    rotamersRef := 0, random_number := none }

/-! Helper lemmas shared by the claim theorems. -/

lemma pyInt_nonneg_eq_floor (q : ℚ) (h : 0 ≤ q) : pyInt q = ⌊q⌋ := by
  rw [pyInt, if_pos h]

lemma pyInt_eq_of (q : ℚ) (z : ℤ) (h0 : 0 ≤ q) (h1 : (z : ℚ) ≤ q)
    (h2 : q < z + 1) : pyInt q = z := by
  rw [pyInt_nonneg_eq_floor _ h0]
  exact Int.floor_eq_iff.mpr ⟨h1, h2⟩

lemma pyInt_zero : pyInt 0 = 0 := by
  rw [pyInt_nonneg_eq_floor _ le_rfl]
  exact Int.floor_zero

lemma pyInt_mul_bounds (s : ℚ) (n : ℕ) (h0 : 0 ≤ s) (h1 : s < 1) (hn : 0 < n) :
    0 ≤ pyInt (s * n) ∧ pyInt (s * n) ≤ (n : ℤ) - 1 := by
  rw [pyInt_nonneg_eq_floor _ (mul_nonneg h0 (by positivity))]
  constructor
  · exact Int.floor_nonneg.mpr (mul_nonneg h0 (by positivity))
  · have : ⌊s * (n : ℚ)⌋ < (n : ℤ) := by
      rw [Int.floor_lt]
      push_cast
      calc s * n < 1 * n := by
            apply mul_lt_mul_of_pos_right h1
            exact_mod_cast hn
        _ = n := one_mul _
    omega

lemma pyInt_mul_toNat_lt (s : ℚ) (n : ℕ) (h0 : 0 ≤ s) (h1 : s < 1) (hn : 0 < n) :
    (pyInt (s * n)).toNat < n := by
  have := pyInt_mul_bounds s n h0 h1 hn
  omega

lemma pyInt_mul_top (s : ℚ) (n : ℕ) (h0 : ((n : ℚ) - 1) / n ≤ s) (h1 : s < 1)
    (hn : 0 < n) : pyInt (s * n) = (n : ℤ) - 1 := by
  have hn1 : (1 : ℚ) ≤ (n : ℚ) := by exact_mod_cast hn
  have hs0 : 0 ≤ s :=
    le_trans (div_nonneg (by linarith) (by positivity)) h0
  have hub := pyInt_mul_bounds s n hs0 h1 hn
  have hlb : (n : ℤ) - 1 ≤ pyInt (s * n) := by
    rw [pyInt_nonneg_eq_floor _ (mul_nonneg hs0 (by positivity))]
    rw [Int.le_floor]
    push_cast
    exact (div_le_iff₀ (by positivity)).mp h0
  omega

lemma lru_capacity_eq_div (r m : ℕ) :
    lru_capacity r m = ((r * (2 + m) : ℕ) : ℤ) / 2 := by
  rw [lru_capacity, cache_size, pyInt_nonneg_eq_floor _ (by positivity)]
  have he : (r : ℚ) * (1 + 1 / 2 * m) = ((r * (2 + m) : ℕ) : ℤ) / ((2 : ℕ) : ℚ) := by
    push_cast
    ring
  rw [he, Rat.floor_intCast_div_natCast]
  norm_num

lemma choice_of_pos (r : ℚ) (l : List String) (rng : ℕ → ℚ) (k : ℕ) (hr : 0 < r) :
    choice (some r) l rng k = (l.getD (pyInt (r * l.length)).toNat "", k) := by
  simp [choice, hr.ne']

lemma appendEntries_shared (r : ℚ) (muts : List String) (hr : 0 < r) :
    ∀ (ress : List Residue) (allele : List (String × ℚ)) (rng : ℕ → ℚ) (k : ℕ),
      appendEntries (some r) muts ress allele rng k =
        (allele ++ sharedEntries r muts ress rng k, k + ress.length) := by
  intro ress
  induction ress with
  | nil => intro allele rng k; simp [appendEntries, sharedEntries]
  | cons res rest ih =>
      intro allele rng k
      rw [appendEntries, choice_of_pos _ _ _ _ hr, ih]
      simp [sharedEntries, pickShared]
      omega

lemma appendEntries_length (rn : Option ℚ) (muts : List String) :
    ∀ (ress : List Residue) (allele : List (String × ℚ)) (rng : ℕ → ℚ) (k : ℕ),
      (appendEntries rn muts ress allele rng k).1.length =
        allele.length + ress.length := by
  intro ress
  induction ress with
  | nil => intro allele rng k; simp [appendEntries]
  | cons res rest ih =>
      intro allele rng k
      rw [appendEntries, ih]
      simp
      omega

lemma appendEntries_append (rn : Option ℚ) (muts : List String) :
    ∀ (a b : List Residue) (allele : List (String × ℚ)) (rng : ℕ → ℚ) (k : ℕ),
      appendEntries rn muts (a ++ b) allele rng k =
        appendEntries rn muts b (appendEntries rn muts a allele rng k).1 rng
          (appendEntries rn muts a allele rng k).2 := by
  intro a
  induction a with
  | nil => intro b allele rng k; simp [appendEntries]
  | cons res rest ih =>
      intro b allele rng k
      rw [List.cons_append, appendEntries, appendEntries, ih]

lemma sharedEntries_fst (r : ℚ) (muts : List String) :
    ∀ (ress : List Residue) (rng : ℕ → ℚ) (k : ℕ),
      (sharedEntries r muts ress rng k).map Prod.fst = ress.map (pickShared r muts) := by
  intro ress
  induction ress with
  | nil => intro rng k; simp [sharedEntries]
  | cons res rest ih =>
      intro rng k
      simp only [sharedEntries, List.map_cons, ih]

lemma sharedEntries_snd (r : ℚ) (muts : List String) :
    ∀ (ress : List Residue) (rng : ℕ → ℚ) (k : ℕ),
      (sharedEntries r muts ress rng k).map Prod.snd =
        (List.range ress.length).map (fun i => rng (k + i)) := by
  intro ress
  induction ress with
  | nil => intro rng k; simp [sharedEntries]
  | cons res rest ih =>
      intro rng k
      rw [List.length_cons, List.range_succ_eq_map, List.map_cons, List.map_map]
      simp only [sharedEntries, List.map_cons, ih, Nat.add_zero, List.cons.injEq, true_and]
      apply List.map_congr_left
      intro i _
      simp only [Function.comp_apply]
      congr 1
      omega

lemma readyInner_eq (spec : ResKey) :
    ∀ (ress : List Residue) (m : Mutamers) (rng : ℕ → ℚ) (k : ℕ),
      (readyInner spec ress m rng k).1.allele =
        (appendEntries m.random_number m.mutations ress m.allele rng k).1 ∧
      (readyInner spec ress m rng k).2 =
        (appendEntries m.random_number m.mutations ress m.allele rng k).2 ∧
      (readyInner spec ress m rng k).1.random_number = m.random_number ∧
      (readyInner spec ress m rng k).1.mutations = m.mutations ∧
      (readyInner spec ress m rng k).1.residues_arg = m.residues_arg ∧
      (readyInner spec ress m rng k).1.ligation = m.ligation ∧
      (readyInner spec ress m rng k).1.indpb = m.indpb ∧
      (readyInner spec ress m rng k).1.rotamers = m.rotamers ∧
      (readyInner spec ress m rng k).1.residues_without_rotamers =
        m.residues_without_rotamers := by
  intro ress
  induction ress with
  | nil => intro m rng k; simp [readyInner, appendEntries]
  | cons res rest ih =>
      intro m rng k
      rw [readyInner, appendEntries]
      exact ih _ rng _

lemma readyOuter_eq (env : ResKey → List Residue) :
    ∀ (specs : List ResKey) (m : Mutamers) (rng : ℕ → ℚ) (k : ℕ),
      (readyOuter env specs m rng k).1.allele =
        (appendEntries m.random_number m.mutations ((specs.map env).flatten)
          m.allele rng k).1 ∧
      (readyOuter env specs m rng k).2 =
        (appendEntries m.random_number m.mutations ((specs.map env).flatten)
          m.allele rng k).2 ∧
      (readyOuter env specs m rng k).1.random_number = m.random_number ∧
      (readyOuter env specs m rng k).1.mutations = m.mutations ∧
      (readyOuter env specs m rng k).1.residues_arg = m.residues_arg ∧
      (readyOuter env specs m rng k).1.ligation = m.ligation ∧
      (readyOuter env specs m rng k).1.indpb = m.indpb ∧
      (readyOuter env specs m rng k).1.rotamers = m.rotamers ∧
      (readyOuter env specs m rng k).1.residues_without_rotamers =
        m.residues_without_rotamers := by
  intro specs
  induction specs with
  | nil => intro m rng k; simp [readyOuter, appendEntries]
  | cons spec rest ih =>
      intro m rng k
      rw [readyOuter]
      have hi := readyInner_eq spec (env spec) m rng k
      have ho := ih (readyInner spec (env spec) m rng k).1 rng
        (readyInner spec (env spec) m rng k).2
      simp only [List.map_cons, List.flatten_cons, appendEntries_append, hi.2.1]
      simp only [hi.1, hi.2.1, hi.2.2.1, hi.2.2.2.1, hi.2.2.2.2.1, hi.2.2.2.2.2.1,
        hi.2.2.2.2.2.2.1, hi.2.2.2.2.2.2.2.1, hi.2.2.2.2.2.2.2.2] at ho
      exact ho

lemma odInsert_of_not_mem (k : ResKey) (v : Residue) (d : List (ResKey × Residue))
    (h : ¬ k ∈ d.map Prod.fst) : odInsert k v d = d ++ [(k, v)] := by
  rw [odInsert, if_neg (by
    simp only [List.any_eq_true, decide_eq_true_eq]
    rintro ⟨kv, hkv, he⟩
    exact h (he ▸ List.mem_map_of_mem Prod.fst hkv))]

lemma readyOuter_keys (env : ResKey → List Residue) :
    ∀ (specs : List ResKey) (m : Mutamers) (rng : ℕ → ℚ) (k : ℕ),
      specs.Nodup → (∀ s ∈ specs, (env s).length = 1) →
      (∀ s ∈ specs, ¬ s ∈ m.residues.map Prod.fst) →
      (readyOuter env specs m rng k).1.residues.map Prod.fst =
        m.residues.map Prod.fst ++ specs := by
  intro specs
  induction specs with
  | nil => intro m rng k _ _ _; simp [readyOuter]
  | cons spec rest ih =>
      intro m rng k hnd hone hnew
      obtain ⟨res, hres⟩ := List.length_eq_one.mp (hone spec (by simp))
      rw [readyOuter, hres]
      have hins : odInsert spec res m.residues = m.residues ++ [(spec, res)] :=
        odInsert_of_not_mem _ _ _ (hnew spec (by simp))
      have hstep : (readyInner spec [res] m rng k).1.residues =
          m.residues ++ [(spec, res)] := by
        simp only [readyInner, hins]
      rw [show readyInner spec [res] m rng k =
        ((readyInner spec [res] m rng k).1, (readyInner spec [res] m rng k).2) from rfl]
      rw [ih _ rng _ (List.nodup_cons.mp hnd).2 (fun s hs => hone s (by simp [hs]))
        (fun s hs => by
          rw [hstep]
          simp only [List.map_append, List.mem_append]
          intro hmem
          rcases hmem with hmem | hmem
          · exact hnew s (by simp [hs]) hmem
          · simp at hmem
            exact (List.nodup_cons.mp hnd).1 (hmem ▸ hs))]
      rw [hstep]
      simp

lemma flatten_length_of_singleton (env : ResKey → List Residue) :
    ∀ specs : List ResKey, (∀ s ∈ specs, (env s).length = 1) →
      ((specs.map env).flatten).length = specs.length := by
  intro specs
  induction specs with
  | nil => intro _; simp
  | cons spec rest ih =>
      intro hone
      simp only [List.map_cons, List.flatten_cons, List.length_append,
        List.length_cons, hone spec (by simp), ih (fun s hs => hone s (by simp [hs]))]
      omega

lemma take_middle_drop (l : List α) (c1 c2 : ℕ) (h : c1 ≤ c2) :
    l.take c1 ++ (l.drop c1).take (c2 - c1) ++ l.drop c2 = l := by
  have h2 : (l.drop c1).drop (c2 - c1) = l.drop c2 := by
    rw [List.drop_drop]
    congr 1
    omega
  rw [List.append_assoc, ← h2, List.take_append_drop, List.take_append_drop]

lemma cxPoints_bounds (p1 p2 s : ℕ) (h1 : 1 ≤ p1) (h2 : p1 ≤ s) (h3 : 1 ≤ p2)
    (h4 : p2 ≤ s - 1) :
    1 ≤ (cxPoints p1 p2).1 ∧ (cxPoints p1 p2).1 < (cxPoints p1 p2).2 ∧
      (cxPoints p1 p2).2 ≤ s := by
  rw [cxPoints]
  by_cases h : p1 ≤ p2 <;> simp [h] <;> omega

lemma cxTwoPoint_perm (l1 l2 : List α) (p1 p2 : ℕ)
    (h : (cxPoints p1 p2).1 ≤ (cxPoints p1 p2).2) :
    ((cxTwoPoint l1 l2 p1 p2).1 ++ (cxTwoPoint l1 l2 p1 p2).2 : Multiset α) =
      (l1 ++ l2 : List α) := by
  rcases hc : cxPoints p1 p2 with ⟨c1, c2⟩
  rw [hc] at h
  simp only [cxTwoPoint, hc]
  have e1 := take_middle_drop l1 c1 c2 h
  have e2 := take_middle_drop l2 c1 c2 h
  calc ((l1.take c1 ++ (l2.drop c1).take (c2 - c1) ++ l1.drop c2) ++
          (l2.take c1 ++ (l1.drop c1).take (c2 - c1) ++ l2.drop c2) : Multiset α)
      = (↑(l1.take c1) + ↑((l1.drop c1).take (c2 - c1)) + ↑(l1.drop c2)) +
          (↑(l2.take c1) + ↑((l2.drop c1).take (c2 - c1)) + ↑(l2.drop c2)) := by
        simp only [← Multiset.coe_add, List.append_assoc]
        abel_nf
    _ = ((l1.take c1 ++ (l1.drop c1).take (c2 - c1) ++ l1.drop c2) ++
          (l2.take c1 ++ (l2.drop c1).take (c2 - c1) ++ l2.drop c2) : Multiset α) := by
        simp only [← Multiset.coe_add, List.append_assoc]
        abel_nf
    _ = (l1 ++ l2 : List α) := by rw [e1, e2]

lemma cxTwoPoint_length (l1 l2 : List α) (p1 p2 : ℕ)
    (h : (cxPoints p1 p2).1 ≤ (cxPoints p1 p2).2)
    (h1 : (cxPoints p1 p2).2 ≤ l1.length) (h2 : (cxPoints p1 p2).2 ≤ l2.length) :
    (cxTwoPoint l1 l2 p1 p2).1.length = l1.length ∧
      (cxTwoPoint l1 l2 p1 p2).2.length = l2.length := by
  rcases hc : cxPoints p1 p2 with ⟨c1, c2⟩
  rw [hc] at h h1 h2
  simp only [cxTwoPoint, hc, List.length_append, List.length_take, List.length_drop]
  omega

lemma cxTwoPoint_outside (l1 l2 : List α) (p1 p2 i : ℕ)
    (hlen : (cxPoints p1 p2).2 ≤ l1.length) (hlen2 : (cxPoints p1 p2).2 ≤ l2.length)
    (hcc : (cxPoints p1 p2).1 ≤ (cxPoints p1 p2).2)
    (hi : i < (cxPoints p1 p2).1 ∨ (cxPoints p1 p2).2 ≤ i) :
    (cxTwoPoint l1 l2 p1 p2).1[i]? = l1[i]? ∧
      (cxTwoPoint l1 l2 p1 p2).2[i]? = l2[i]? := by
  rcases hc : cxPoints p1 p2 with ⟨c1, c2⟩
  rw [hc] at hlen hlen2 hcc hi
  simp only [cxTwoPoint, hc]
  rcases hi with hi | hi
  · constructor
    · rw [List.append_assoc, List.getElem?_append_left (by simp; omega),
        List.getElem?_take_of_lt hi]
    · rw [List.append_assoc, List.getElem?_append_left (by simp; omega),
        List.getElem?_take_of_lt hi]
  · have hlt1 : c1 ⊓ l1.length = c1 := by omega
    have hlt2 : c1 ⊓ l2.length = c1 := by omega
    constructor
    · rw [List.getElem?_append_right (by simp [hlt1]; omega)]
      simp only [List.length_append, List.length_take, List.length_drop, hlt1]
      rw [List.getElem?_drop]
      congr 1
      omega
    · rw [List.getElem?_append_right (by simp [hlt2]; omega)]
      simp only [List.length_append, List.length_take, List.length_drop, hlt2]
      rw [List.getElem?_drop]
      congr 1
      omega

lemma cxTwoPoint_inside (l1 l2 : List α) (p1 p2 i : ℕ)
    (hlen : (cxPoints p1 p2).2 ≤ l1.length) (hlen2 : (cxPoints p1 p2).2 ≤ l2.length)
    (hi1 : (cxPoints p1 p2).1 ≤ i) (hi2 : i < (cxPoints p1 p2).2) :
    (cxTwoPoint l1 l2 p1 p2).1[i]? = l2[i]? ∧
      (cxTwoPoint l1 l2 p1 p2).2[i]? = l1[i]? := by
  rcases hc : cxPoints p1 p2 with ⟨c1, c2⟩
  rw [hc] at hlen hlen2 hi1 hi2
  simp only [cxTwoPoint, hc]
  constructor
  · rw [List.append_assoc, List.getElem?_append_right (by simp; omega)]
    rw [List.getElem?_append_left (by simp; omega)]
    rw [List.getElem?_take_of_lt (by simp; omega), List.getElem?_drop]
    congr 1
    simp
    omega
  · rw [List.append_assoc, List.getElem?_append_right (by simp; omega)]
    rw [List.getElem?_append_left (by simp; omega)]
    rw [List.getElem?_take_of_lt (by simp; omega), List.getElem?_drop]
    congr 1
    simp
    omega

/-! Claim theorems, counterexamples and witnesses. -/

/-- C6: in express, for every selector s in [0,1) and candidate count n > 0 the
rotamer index int(s*n) lies in [0, n-1], so indexing the candidate list never
goes out of bounds; selector 0 picks index 0, any selector in [(n-1)/n, 1)
picks index n-1, and selector 0.8 with 4 candidates picks index 3. -/
theorem express_selector_index_in_bounds :
    (∀ (s : ℚ) (n : ℕ), 0 ≤ s → s < 1 → 0 < n →
      (0 ≤ rotamer_index s n ∧ rotamer_index s n ≤ (n : ℤ) - 1) ∧
      (∀ rotamer : List Rot, rotamer.length = n →
        (expressChoose rotamer s).isSome = true)) ∧
    (∀ n : ℕ, rotamer_index 0 n = 0) ∧
    (∀ (s : ℚ) (n : ℕ), ((n : ℚ) - 1) / n ≤ s → s < 1 → 0 < n →
      rotamer_index s n = (n : ℤ) - 1) ∧
    rotamer_index (4 / 5) 4 = 3 := by
  refine ⟨?_, ?_, ?_, ?_⟩
  · intro s n h0 h1 hn
    refine ⟨pyInt_mul_bounds s n h0 h1 hn, ?_⟩
    intro rotamer hlen
    have hlt : (rotamer_index s rotamer.length).toNat < rotamer.length := by
      rw [hlen]
      exact pyInt_mul_toNat_lt s n h0 h1 hn
    rw [expressChoose, List.get?_eq_getElem?, List.getElem?_eq_getElem hlt]
    rfl
  · intro n
    rw [rotamer_index, zero_mul, pyInt_zero]
  · intro s n h0 h1 hn
    exact pyInt_mul_top s n h0 h1 hn
  · rw [rotamer_index]
    apply pyInt_eq_of <;> norm_num

/-- Witness for C6 at s = 1/2, n = 2 and s = 3/4, n = 4. -/
theorem express_selector_index_in_bounds_witness :
    (0 ≤ (1 / 2 : ℚ) ∧ (1 / 2 : ℚ) < 1 ∧ 0 < 2) ∧
    (0 ≤ rotamer_index (1 / 2) 2 ∧ rotamer_index (1 / 2) 2 ≤ (2 : ℤ) - 1) ∧
    (expressChoose [7, 9] (1 / 2)).isSome = true ∧
    (((4 : ℚ) - 1) / 4 ≤ (4 / 5 : ℚ) ∧ rotamer_index (4 / 5) 4 = (4 : ℤ) - 1) := by
  refine ⟨⟨by norm_num, by norm_num, by norm_num⟩, ?_, ?_, ⟨by norm_num, ?_⟩⟩
  · exact (express_selector_index_in_bounds.1 (1 / 2) 2 (by norm_num) (by norm_num)
      (by norm_num)).1
  · exact (express_selector_index_in_bounds.1 (1 / 2) 2 (by norm_num) (by norm_num)
      (by norm_num)).2 [7, 9] rfl
  · exact express_selector_index_in_bounds.2.2.1 (4 / 5) 4 (by norm_num) (by norm_num)
      (by norm_num)

/-- C10: choice reuses a truthy stored value r as l[int(r*len(l))] without
consuming a fresh draw, but a stored value of exactly 0 (or None) is falsy, so
choice falls back to a fresh independent draw on every call. -/
theorem choice_truthiness :
    (∀ (r : ℚ) (l : List String) (rng : ℕ → ℚ) (k : ℕ), 0 < r → r < 1 →
      choice (some r) l rng k = (l.getD (pyInt (r * l.length)).toNat "", k) ∧
      (l ≠ [] → (pyInt (r * l.length)).toNat < l.length ∧
        l.getD (pyInt (r * l.length)).toNat "" ∈ l)) ∧
    (∀ (l : List String) (rng : ℕ → ℚ) (k : ℕ),
      choice (some 0) l rng k = (l.getD (pyInt (rng k * l.length)).toNat "", k + 1) ∧
      choice none l rng k = (l.getD (pyInt (rng k * l.length)).toNat "", k + 1)) := by
  constructor
  · intro r l rng k h0 h1
    refine ⟨choice_of_pos r l rng k h0, ?_⟩
    intro hne
    have hlen : 0 < l.length := List.length_pos.mpr hne
    have hlt := pyInt_mul_toNat_lt r l.length h0.le h1 hlen
    refine ⟨hlt, ?_⟩
    rw [List.getD_eq_getElem l "" hlt]
    exact List.getElem_mem hlt
  · intro l rng k
    constructor
    · simp [choice]
    · simp [choice]

/-- Witness for C10 at r = 4/5 over a four-element list. -/
theorem choice_truthiness_witness :
    (0 < (4 / 5 : ℚ) ∧ (4 / 5 : ℚ) < 1 ∧ (["A", "B", "C", "D"] : List String) ≠ []) ∧
    choice (some (4 / 5)) ["A", "B", "C", "D"] (fun _ => 0) 7 =
      ((["A", "B", "C", "D"] : List String).getD
        (pyInt ((4 / 5) * (4 : ℕ))).toNat "", 7) ∧
    (pyInt ((4 / 5 : ℚ) * ((["A", "B", "C", "D"] : List String).length : ℕ))).toNat <
      (["A", "B", "C", "D"] : List String).length := by
  refine ⟨⟨by norm_num, by norm_num, by simp⟩, ?_, ?_⟩
  · exact (choice_truthiness.1 (4 / 5) ["A", "B", "C", "D"] (fun _ => 0) 7
      (by norm_num) (by norm_num)).1
  · exact ((choice_truthiness.1 (4 / 5) ["A", "B", "C", "D"] (fun _ => 0) 7
      (by norm_num) (by norm_num)).2 (by simp)).1

/-- C5: the no-rotamer list is seeded with ALA and GLY at construction;
get_rotamers fails immediately without a provider call whenever the requested
type is already listed, and once the provider reports no candidates for a type
the type is recorded, so every later call for it fails immediately without a
provider call. -/
theorem get_rotamers_no_rotamer_shortcircuit :
    (∀ (specs : List ResKey) (lib : String) (avoid : Bool) (muts : List String)
        (lig hyd : Bool) (ip : ℚ) (rng : ℕ → ℚ) (k : ℕ),
      (Mutamers.init specs lib avoid muts lig hyd ip rng k).1.residues_without_rotamers
        = ["ALA", "GLY"]) ∧
    (∀ (m : Mutamers) (provider : RotKey → Option (List Rot)) (mol : String)
        (pos : Int) (restype : String),
      restype ∈ m.residues_without_rotamers →
      m.get_rotamers provider mol pos restype = (Except.error (), m, false)) ∧
    (∀ (m : Mutamers) (provider : RotKey → Option (List Rot)) (mol mol2 : String)
        (pos pos2 : Int) (restype : String),
      ¬ restype ∈ m.residues_without_rotamers →
      m.rotamers.lookup (mol, pos, restype) = none →
      provider (mol, pos, restype) = none →
      (m.get_rotamers provider mol pos restype).1 = Except.error () ∧
      (m.get_rotamers provider mol pos restype).2.2 = true ∧
      restype ∈ (m.get_rotamers provider mol pos restype).2.1.residues_without_rotamers ∧
      (m.get_rotamers provider mol pos restype).2.1.get_rotamers provider mol2 pos2
          restype =
        (Except.error (), (m.get_rotamers provider mol pos restype).2.1, false)) := by
  refine ⟨?_, ?_, ?_⟩
  · intro specs lib avoid muts lig hyd ip rng k
    rfl
  · intro m provider mol pos restype hmem
    rw [Mutamers.get_rotamers, if_pos hmem]
  · intro m provider mol mol2 pos pos2 restype hmem hcache hprov
    have hfirst : m.get_rotamers provider mol pos restype =
        (Except.error (),
         { m with residues_without_rotamers :=
            m.residues_without_rotamers ++ [restype] }, true) := by
      rw [Mutamers.get_rotamers, if_neg hmem, hcache, hprov]
    rw [hfirst]
    refine ⟨rfl, rfl, ?_, ?_⟩
    · simp
    · rw [Mutamers.get_rotamers, if_pos (by simp)]

/-- Witness for C5: a fresh instance, an empty cache and a provider with no
candidates for SER. -/
theorem get_rotamers_no_rotamer_shortcircuit_witness :
    ("ALA" ∈ (Mutamers.init [] "Dunbrack" false [] false false 0 (fun _ => 0)
        0).1.residues_without_rotamers ∧
      (Mutamers.init [] "Dunbrack" false [] false false 0 (fun _ => 0)
        0).1.get_rotamers (fun _ => none) "A" 1 "ALA" =
        (Except.error (), (Mutamers.init [] "Dunbrack" false [] false false 0
          (fun _ => 0) 0).1, false)) ∧
    (¬ "SER" ∈ (Mutamers.init [] "Dunbrack" false [] false false 0 (fun _ => 0)
        0).1.residues_without_rotamers ∧
      ((Mutamers.init [] "Dunbrack" false [] false false 0 (fun _ => 0)
          0).1.get_rotamers (fun _ => none) "A" 1 "SER").2.2 = true ∧
      (((Mutamers.init [] "Dunbrack" false [] false false 0 (fun _ => 0)
          0).1.get_rotamers (fun _ => none) "A" 1 "SER").2.1.get_rotamers
            (fun _ => none) "B" 2 "SER").2.2 = false) := by
  have h2 := get_rotamers_no_rotamer_shortcircuit.2.1
    (Mutamers.init [] "Dunbrack" false [] false false 0 (fun _ => 0) 0).1
    (fun _ => none) "A" 1 "ALA" (by simp [Mutamers.init])
  have h3 := get_rotamers_no_rotamer_shortcircuit.2.2
    (Mutamers.init [] "Dunbrack" false [] false false 0 (fun _ => 0) 0).1
    (fun _ => none) "A" "B" 1 2 "SER" (by simp [Mutamers.init]) rfl rfl
  exact ⟨⟨by simp [Mutamers.init], h2⟩, ⟨by simp [Mutamers.init], h3.2.1,
    by rw [h3.2.2.2]⟩⟩

/-- C7: with ligation enabled, mate leaves both parents' per-residue type
sequences unchanged; only the selector components are recombined, their total
multiset across the two parents being preserved. -/
theorem mate_ligation_types_unchanged (m other : Mutamers) (p1 p2 : ℕ)
    (hlig : m.ligation = true)
    (h1 : 1 ≤ p1) (h2 : p1 ≤ min m.allele.length other.allele.length)
    (h3 : 1 ≤ p2) (h4 : p2 ≤ min m.allele.length other.allele.length - 1) :
    ((m.mate other p1 p2).1.allele.map Prod.fst = m.allele.map Prod.fst) ∧
    ((m.mate other p1 p2).2.allele.map Prod.fst = other.allele.map Prod.fst) ∧
    (((m.mate other p1 p2).1.allele.map Prod.snd ++
        (m.mate other p1 p2).2.allele.map Prod.snd : Multiset ℚ) =
      (m.allele.map Prod.snd ++ other.allele.map Prod.snd : List ℚ)) := by
  have hb := cxPoints_bounds p1 p2 (min m.allele.length other.allele.length)
    h1 h2 h3 h4
  have hlen := cxTwoPoint_length (m.allele.map Prod.snd) (other.allele.map Prod.snd)
    p1 p2 hb.2.1.le (by simp; omega) (by simp; omega)
  have hperm := cxTwoPoint_perm (m.allele.map Prod.snd) (other.allele.map Prod.snd)
    p1 p2 hb.2.1.le
  simp only [Mutamers.mate, hlig, if_true]
  refine ⟨?_, ?_, ?_⟩
  · rw [List.map_fst_zip]
    rw [hlen.1]
    simp
  · rw [List.map_fst_zip]
    rw [hlen.2]
    simp
  · rw [List.map_snd_zip, List.map_snd_zip]
    · exact hperm
    · rw [hlen.2]; simp
    · rw [hlen.1]; simp

/-- Witness for C7 on two two-entry ligated parents with cut points 1, 1. -/
theorem mate_ligation_types_unchanged_witness :
    (mutC1.ligation = true ∧ 1 ≤ 1 ∧
      1 ≤ min (mutC1.ready envC1 rngC1 1).1.allele.length
        (mutC1.ready envC1 rngC1 1).1.allele.length ∧
      1 ≤ min (mutC1.ready envC1 rngC1 1).1.allele.length
        (mutC1.ready envC1 rngC1 1).1.allele.length - 1) ∧
    (((mutC1.ready envC1 rngC1 1).1.mate (mutC1.ready envC1 rngC1 1).1
        1 1).1.allele.map Prod.fst =
      (mutC1.ready envC1 rngC1 1).1.allele.map Prod.fst) := by
  have hlen : (mutC1.ready envC1 rngC1 1).1.allele.length = 2 := by
    have hq := readyOuter_eq envC1 (mutC1.residues_arg) mutC1 rngC1 1
    rw [Mutamers.ready, hq.1, appendEntries_length]
    rw [show mutC1.residues_arg = [("A", 1), ("A", 2)] from rfl]
    simp [envC1, mutC1, Mutamers.init]
  have hligm : (mutC1.ready envC1 rngC1 1).1.ligation = true := by
    have hq := readyOuter_eq envC1 (mutC1.residues_arg) mutC1 rngC1 1
    rw [Mutamers.ready, hq.2.2.2.2.2.1]
    rfl
  refine ⟨⟨hligm, le_rfl, by rw [hlen]; norm_num, by rw [hlen]; norm_num⟩, ?_⟩
  exact (mate_ligation_types_unchanged _ _ 1 1 hligm le_rfl
    (by rw [hlen]; norm_num) le_rfl (by rw [hlen]; norm_num)).1

/-- C8: without ligation, mate is a two-point crossover on the two alleles: the
multiset of (type, selector) pairs across both individuals is preserved, and
entries outside the two cut points stay in place while the contiguous segment
between them is exchanged at identical positions. -/
theorem mate_crossover_rearrangement (m other : Mutamers) (p1 p2 : ℕ)
    (hlig : m.ligation = false)
    (h1 : 1 ≤ p1) (h2 : p1 ≤ min m.allele.length other.allele.length)
    (h3 : 1 ≤ p2) (h4 : p2 ≤ min m.allele.length other.allele.length - 1) :
    (((m.mate other p1 p2).1.allele ++ (m.mate other p1 p2).2.allele :
        Multiset (String × ℚ)) = (m.allele ++ other.allele : List (String × ℚ))) ∧
    (∀ i, i < (cxPoints p1 p2).1 ∨ (cxPoints p1 p2).2 ≤ i →
      (m.mate other p1 p2).1.allele[i]? = m.allele[i]? ∧
      (m.mate other p1 p2).2.allele[i]? = other.allele[i]?) ∧
    (∀ i, (cxPoints p1 p2).1 ≤ i → i < (cxPoints p1 p2).2 →
      (m.mate other p1 p2).1.allele[i]? = other.allele[i]? ∧
      (m.mate other p1 p2).2.allele[i]? = m.allele[i]?) := by
  have hb := cxPoints_bounds p1 p2 (min m.allele.length other.allele.length)
    h1 h2 h3 h4
  simp only [Mutamers.mate, hlig, Bool.false_eq_true, if_false]
  refine ⟨cxTwoPoint_perm _ _ p1 p2 hb.2.1.le, ?_, ?_⟩
  · intro i hi
    exact cxTwoPoint_outside m.allele other.allele p1 p2 i (by omega) (by omega)
      hb.2.1.le hi
  · intro i hi1 hi2
    exact cxTwoPoint_inside m.allele other.allele p1 p2 i (by omega) (by omega)
      hi1 hi2

/-- Witness for C8 on concrete three-entry parents with cut points 2, 1. -/
theorem mate_crossover_rearrangement_witness :
    (mutC2.ligation = false ∧ 1 ≤ 2 ∧
      2 ≤ min ({ mutC2 with allele := [("A", 0), ("B", 0), ("C", 0)] } :
          Mutamers).allele.length
        ({ mutC2 with allele := [("D", 0), ("E", 0), ("F", 0)] } :
          Mutamers).allele.length ∧ 1 ≤ 1) ∧
    ((({ mutC2 with allele := [("A", 0), ("B", 0), ("C", 0)] } : Mutamers).mate
        { mutC2 with allele := [("D", 0), ("E", 0), ("F", 0)] } 2 1).1.allele ++
      (({ mutC2 with allele := [("A", 0), ("B", 0), ("C", 0)] } : Mutamers).mate
        { mutC2 with allele := [("D", 0), ("E", 0), ("F", 0)] } 2 1).2.allele :
        Multiset (String × ℚ)) =
      (([("A", 0), ("B", 0), ("C", 0)] ++ [("D", 0), ("E", 0), ("F", 0)] :
        List (String × ℚ))) := by
  refine ⟨⟨rfl, by norm_num, by simp, le_rfl⟩, ?_⟩
  exact (mate_crossover_rearrangement
    { mutC2 with allele := [("A", 0), ("B", 0), ("C", 0)] }
    { mutC2 with allele := [("D", 0), ("E", 0), ("F", 0)] } 2 1 rfl
    (by norm_num) (by simp) le_rfl (by simp)).1

/-- Counterexample to C4: with one residue and one mutation type the
constructor builds the cache with capacity int(1 * 1.5) = 1, whereas
ceil(1 * (1 + 0.5 * 1)) = 2. -/
theorem lru_capacity_not_ceil :
    (Mutamers.init [("A", 1)] "Dunbrack" false ["SER"] false false 0
      (fun _ => 0) 0).1.rotamers.capacity = 1 ∧
    (⌈((1 : ℚ) * (1 + (1 / 2) * (1 : ℚ)))⌉ : ℤ) = 2 := by
  constructor
  · rw [show (Mutamers.init [("A", 1)] "Dunbrack" false ["SER"] false false 0
      (fun _ => 0) 0).1.rotamers.capacity = lru_capacity 1 1 from rfl]
    rw [lru_capacity_eq_div]
    decide
  · rw [show ((1 : ℚ) * (1 + (1 / 2) * (1 : ℚ))) = 3 / 2 by norm_num]
    rw [Int.ceil_eq_iff] <;> norm_num

/-- C4 amended: a freshly created rotamer cache has capacity
floor(residue_count * (1 + 0.5 * mutation_type_count)), i.e. the integer
division (residue_count * (2 + mutation_type_count)) / 2, and no later cache
operation (touch, put, or any get_rotamers branch) changes the capacity. -/
theorem lru_capacity_floor_fixed :
    (∀ (specs : List ResKey) (lib : String) (avoid : Bool) (muts : List String)
        (lig hyd : Bool) (ip : ℚ) (rng : ℕ → ℚ) (k : ℕ),
      (Mutamers.init specs lib avoid muts lig hyd ip rng k).1.rotamers.capacity =
        ((specs.length * (2 + muts.length) : ℕ) : ℤ) / 2) ∧
    (∀ (c : LRU) (key : RotKey) (v : List Rot), (c.put key v).capacity = c.capacity) ∧
    (∀ (c : LRU) (key : RotKey), (c.touch key).capacity = c.capacity) ∧
    (∀ (m : Mutamers) (provider : RotKey → Option (List Rot)) (mol : String)
        (pos : Int) (restype : String),
      (m.get_rotamers provider mol pos restype).2.1.rotamers.capacity =
        m.rotamers.capacity) := by
  refine ⟨?_, ?_, ?_, ?_⟩
  · intro specs lib avoid muts lig hyd ip rng k
    exact lru_capacity_eq_div specs.length muts.length
  · intro c key v
    rfl
  · intro c key
    rw [LRU.touch]
    cases hf : c.entries.find? (fun e => e.1 = key) <;> simp [hf]
  · intro m provider mol pos restype
    rw [Mutamers.get_rotamers]
    by_cases hmem : restype ∈ m.residues_without_rotamers
    · rw [if_pos hmem]
    · rw [if_neg hmem]
      rcases hc : m.rotamers.lookup (mol, pos, restype) with _ | rots
      · rcases hp : provider (mol, pos, restype) with _ | rots2
        · rfl
        · rfl
      · simp only
        rw [LRU.touch]
        cases hf : m.rotamers.entries.find? (fun e => e.1 = (mol, pos, restype))
          <;> simp [hf]

/-- Counterexample to C2: the stored probability of mutC2 is 0, the fresh draw
is 1/4, and the argument passed to mutate is 1; the draw falls below the
argument, yet mutate leaves the instance entirely unchanged, keeping the
allele entry of type GLY that no regeneration from the LYS residue table could
produce. -/
theorem mutate_ignores_argument_cex :
    (1 / 4 : ℚ) < 1 ∧
    mutC2.mutate 1 (fun _ => 1 / 4) 0 = (mutC2, 1) ∧
    mutC2.allele = [("GLY", 1 / 2)] ∧
    mutC2.residues.map (fun kv => kv.2.type) = ["LYS"] ∧
    ¬ "GLY" ∈ mutC2.mutations ++ ["LYS"] := by
  refine ⟨by norm_num, ?_, rfl, rfl, by simp [mutC2]⟩
  rw [Mutamers.mutate, if_neg (by norm_num [mutC2])]

/-- C2 amended: mutate ignores its probability argument; the allele is
discarded and regenerated (one fresh entry per residue of the table, the
shared value being redrawn first when ligation is on) exactly when one fresh
random draw falls below the stored instance probability self.indpb. -/
theorem mutate_stored_probability (m : Mutamers) (p q : ℚ) (rng : ℕ → ℚ) (k : ℕ) :
    m.mutate p rng k = m.mutate q rng k ∧
    (¬ rng k < m.indpb → m.mutate p rng k = (m, k + 1)) ∧
    (rng k < m.indpb →
      (m.mutate p rng k).1.allele.length = m.residues.length ∧
      (m.ligation = true → (m.mutate p rng k).1.random_number = some (rng (k + 1))) ∧
      (m.ligation = false → (m.mutate p rng k).1.random_number = m.random_number)) := by
  refine ⟨rfl, ?_, ?_⟩
  · intro hlt
    rw [Mutamers.mutate, if_neg hlt]
  · intro hlt
    refine ⟨?_, ?_, ?_⟩
    · rw [Mutamers.mutate, if_pos hlt]
      simp only [appendEntries_length, List.length_nil, List.length_map, Nat.zero_add]
    · intro hlig
      rw [Mutamers.mutate, if_pos hlt]
      simp [hlig]
    · intro hlig
      rw [Mutamers.mutate, if_pos hlt]
      simp [hlig]

/-- Witness for C2 amended: both branches of the regeneration test, at stored
probability 0 with draw 1/4 and at stored probability 1/2 with draw 1/4. -/
theorem mutate_stored_probability_witness :
    (¬ (1 / 4 : ℚ) < mutC2.indpb ∧ mutC2.mutate 1 (fun _ => 1 / 4) 0 = (mutC2, 1)) ∧
    ((1 / 4 : ℚ) < ({ mutC2 with indpb := 1 / 2 } : Mutamers).indpb ∧
      (({ mutC2 with indpb := 1 / 2 } : Mutamers).mutate 1
        (fun _ => 1 / 4) 0).1.allele.length =
        ({ mutC2 with indpb := 1 / 2 } : Mutamers).residues.length) := by
  constructor
  · refine ⟨by norm_num [mutC2], ?_⟩
    exact (mutate_stored_probability mutC2 1 1 (fun _ => 1 / 4) 0).2.1
      (by norm_num [mutC2])
  · refine ⟨by norm_num [mutC2], ?_⟩
    exact ((mutate_stored_probability { mutC2 with indpb := 1 / 2 } 1 1
      (fun _ => 1 / 4) 0).2.2 (by norm_num [mutC2])).1

/-- Counterexample to C3: listing the same residue spec twice makes __ready__
append two allele entries while the OrderedDict keeps a single key, so
len(allele) = 2 but len(residues) = 1. -/
theorem ready_length_mismatch_cex :
    (mutC3.ready envC3 (fun _ => 0) 0).1.allele.length = 2 ∧
    (mutC3.ready envC3 (fun _ => 0) 0).1.residues.length = 1 := by
  simp [mutC3, Mutamers.init, Mutamers.ready, readyOuter, readyInner, choice,
    odInsert, envC3, pyInt_zero]

/-- C3 amended: len(allele) = len(residues) holds after __ready__ provided the
requested specs are pairwise distinct and each resolves to exactly one residue
(the allele order then follows the residue insertion order, the table keys
being exactly the spec list in order); it is preserved unconditionally by
mutate, and by mate whenever the crossover points are in the range deap draws
them from. -/
theorem allele_length_invariant :
    (∀ (env : ResKey → List Residue) (specs : List ResKey) (lib : String)
        (avoid : Bool) (muts : List String) (lig hyd : Bool) (ip : ℚ)
        (rng rng2 : ℕ → ℚ) (k k2 : ℕ),
      specs.Nodup → (∀ s ∈ specs, (env s).length = 1) →
      ((Mutamers.init specs lib avoid muts lig hyd ip rng k).1.ready env rng2
          k2).1.allele.length = specs.length ∧
      ((Mutamers.init specs lib avoid muts lig hyd ip rng k).1.ready env rng2
          k2).1.residues.length = specs.length ∧
      ((Mutamers.init specs lib avoid muts lig hyd ip rng k).1.ready env rng2
          k2).1.residues.map Prod.fst = specs) ∧
    (∀ (m : Mutamers) (p : ℚ) (rng : ℕ → ℚ) (k : ℕ),
      m.allele.length = m.residues.length →
      (m.mutate p rng k).1.allele.length = (m.mutate p rng k).1.residues.length) ∧
    (∀ (m other : Mutamers) (p1 p2 : ℕ),
      1 ≤ p1 → p1 ≤ min m.allele.length other.allele.length →
      1 ≤ p2 → p2 ≤ min m.allele.length other.allele.length - 1 →
      m.allele.length = m.residues.length →
      other.allele.length = other.residues.length →
      (m.mate other p1 p2).1.allele.length = (m.mate other p1 p2).1.residues.length ∧
      (m.mate other p1 p2).2.allele.length =
        (m.mate other p1 p2).2.residues.length) := by
  refine ⟨?_, ?_, ?_⟩
  · intro env specs lib avoid muts lig hyd ip rng rng2 k k2 hnd hone
    have hq := readyOuter_eq env
      ((Mutamers.init specs lib avoid muts lig hyd ip rng k).1.residues_arg)
      (Mutamers.init specs lib avoid muts lig hyd ip rng k).1 rng2 k2
    have hargs : (Mutamers.init specs lib avoid muts lig hyd ip rng k).1.residues_arg
        = specs := rfl
    have hres0 : (Mutamers.init specs lib avoid muts lig hyd ip rng k).1.residues
        = [] := rfl
    have hall0 : (Mutamers.init specs lib avoid muts lig hyd ip rng k).1.allele
        = [] := rfl
    have hkeys := readyOuter_keys env specs
      (Mutamers.init specs lib avoid muts lig hyd ip rng k).1 rng2 k2 hnd hone
      (by rw [hres0]; simp)
    rw [hres0] at hkeys
    simp only [List.map_nil, List.nil_append] at hkeys
    refine ⟨?_, ?_, ?_⟩
    · rw [Mutamers.ready, hq.1, appendEntries_length, hall0, hargs,
        flatten_length_of_singleton env specs hone]
      simp
    · rw [Mutamers.ready, hargs]
      have := congrArg List.length hkeys
      rw [List.length_map] at this
      exact this
    · rw [Mutamers.ready, hargs]
      exact hkeys
  · intro m p rng k hinv
    rw [Mutamers.mutate]
    by_cases hlt : rng k < m.indpb
    · rw [if_pos hlt]
      simp only [appendEntries_length, List.length_nil, List.length_map, Nat.zero_add]
    · rw [if_neg hlt]
      exact hinv
  · intro m other p1 p2 h1 h2 h3 h4 hinv1 hinv2
    have hb := cxPoints_bounds p1 p2 (min m.allele.length other.allele.length)
      h1 h2 h3 h4
    rw [Mutamers.mate]
    by_cases hlig : m.ligation
    · rw [if_pos hlig]
      have hlen := cxTwoPoint_length (m.allele.map Prod.snd)
        (other.allele.map Prod.snd) p1 p2 hb.2.1.le (by simp; omega) (by simp; omega)
      simp only [List.length_zip, List.length_map, hlen.1, hlen.2]
      constructor
      · rw [← hinv1]
        simp
      · rw [← hinv2]
        simp
    · rw [if_neg hlig]
      have hlen := cxTwoPoint_length m.allele other.allele p1 p2 hb.2.1.le
        (by omega) (by omega)
      simp only [hlen.1, hlen.2]
      exact ⟨hinv1, hinv2⟩

/-- Witness for C3 amended: two distinct specs each resolving to one residue,
a mutate call on mutC2, and a mate call between three-entry parents. -/
theorem allele_length_invariant_witness :
    (([("A", 1), ("A", 2)] : List ResKey).Nodup ∧
      (∀ s ∈ ([("A", 1), ("A", 2)] : List ResKey), (envC1 s).length = 1) ∧
      ((Mutamers.init [("A", 1), ("A", 2)] "Dunbrack" false [] false false 0
          (fun _ => 0) 0).1.ready envC1 (fun _ => 0) 0).1.allele.length = 2) ∧
    (mutC2.allele.length = mutC2.residues.length ∧
      (mutC2.mutate 1 (fun _ => 1 / 4) 0).1.allele.length =
        (mutC2.mutate 1 (fun _ => 1 / 4) 0).1.residues.length) ∧
    ((mutP1.mate mutP2 2 1).1.allele.length =
      (mutP1.mate mutP2 2 1).1.residues.length) := by
  have henv : ∀ s ∈ ([("A", 1), ("A", 2)] : List ResKey), (envC1 s).length = 1 := by
    intro s hs
    rcases List.mem_cons.mp hs with rfl | hs2
    · simp [envC1]
    · rcases List.mem_cons.mp hs2 with rfl | hs3
      · simp [envC1]
      · simp at hs3
  refine ⟨⟨by simp, henv, ?_⟩, ⟨rfl, ?_⟩, ?_⟩
  · exact (allele_length_invariant.1 envC1 [("A", 1), ("A", 2)] "Dunbrack" false []
      false false 0 (fun _ => 0) (fun _ => 0) 0 0 (by simp) henv).1
  · exact allele_length_invariant.2.1 mutC2 1 (fun _ => 1 / 4) 0 rfl
  · exact (allele_length_invariant.2.2 mutP1 mutP2 2 1
      (by norm_num) (by simp [mutP1, mutP2]) le_rfl (by simp [mutP1, mutP2])
      rfl rfl).1

/-- Counterexample to C9: after __deepcopy__ the clone holds the very same
_residues_without_rotamers list object as the original, so appending SER
through the clone's reference is visible through the original's reference —
the set is shared, not copied. -/
theorem deepcopy_norot_aliased_cex :
    (deepcopyMutamers heapC9 refC9 (fun _ => 0) 0).2.1.norotRef = refC9.norotRef ∧
    heapC9.readNorot refC9.norotRef = ["ALA", "GLY"] ∧
    ((deepcopyMutamers heapC9 refC9 (fun _ => 0) 0).1.appendNorot
        (deepcopyMutamers heapC9 refC9 (fun _ => 0) 0).2.1.norotRef "SER").readNorot
      refC9.norotRef = ["ALA", "GLY", "SER"] := by
  refine ⟨rfl, rfl, ?_⟩
  simp [deepcopyMutamers, heapC9, refC9, Heap.appendNorot, Heap.readNorot,
    Heap.readAllele]

/-- C9 amended: __deepcopy__ shares the residue table and the rotamer cache by
reference and also shares the no-rotamer list by reference (its accumulated
contents carry over; it is not recomputed), while the allele list is a fresh
copy: replacing the clone's allele list leaves the original's allele
unchanged. -/
theorem deepcopy_sharing (h : Heap) (o : MutamersRef) (rng : ℕ → ℚ) (k : ℕ)
    (ha : o.alleleRef < h.alleles.length) (hn : o.norotRef < h.norots.length) :
    ((deepcopyMutamers h o rng k).2.1.residuesRef = o.residuesRef) ∧
    ((deepcopyMutamers h o rng k).2.1.rotamersRef = o.rotamersRef) ∧
    ((deepcopyMutamers h o rng k).2.1.norotRef = o.norotRef) ∧
    ((deepcopyMutamers h o rng k).1.readNorot o.norotRef = h.readNorot o.norotRef) ∧
    ((deepcopyMutamers h o rng k).2.1.alleleRef ≠ o.alleleRef) ∧
    ((deepcopyMutamers h o rng k).1.readAllele
        (deepcopyMutamers h o rng k).2.1.alleleRef = h.readAllele o.alleleRef) ∧
    (∀ v, ((deepcopyMutamers h o rng k).1.setAllele
        (deepcopyMutamers h o rng k).2.1.alleleRef v).readAllele o.alleleRef =
      h.readAllele o.alleleRef) ∧
    ((deepcopyMutamers h o rng k).2.1.random_number = o.random_number) := by
  refine ⟨rfl, rfl, rfl, ?_, ?_, ?_, ?_, rfl⟩
  · rw [deepcopyMutamers]
    simp only [Heap.readNorot]
    rw [List.getD_eq_getElem?_getD, List.getD_eq_getElem?_getD,
      List.getElem?_append_left hn]
  · rw [deepcopyMutamers]
    simp only [List.length_append, List.length_cons, List.length_nil]
    omega
  · rw [deepcopyMutamers]
    simp only [Heap.readAllele]
    rw [List.getD_eq_getElem?_getD, List.getD_eq_getElem?_getD,
      List.getElem?_concat_length]
    rfl
  · intro v
    rw [deepcopyMutamers]
    simp only [Heap.setAllele, Heap.readAllele]
    rw [List.getD_eq_getElem?_getD, List.getD_eq_getElem?_getD,
      List.getElem?_set_ne (by simp; omega)]
    rw [List.append_assoc, List.getElem?_append_left ha]

/-- Witness for C9 amended on the one-object heap. -/
theorem deepcopy_sharing_witness :
    (refC9.alleleRef < heapC9.alleles.length ∧
      refC9.norotRef < heapC9.norots.length) ∧
    ((deepcopyMutamers heapC9 refC9 (fun _ => 0) 0).2.1.alleleRef ≠
      refC9.alleleRef ∧
    ((deepcopyMutamers heapC9 refC9 (fun _ => 0) 0).1.setAllele
        (deepcopyMutamers heapC9 refC9 (fun _ => 0) 0).2.1.alleleRef []).readAllele
      refC9.alleleRef = heapC9.readAllele refC9.alleleRef) := by
  have hd := deepcopy_sharing heapC9 refC9 (fun _ => 0) 0 (by simp [heapC9, refC9])
    (by simp [heapC9, refC9])
  exact ⟨⟨by simp [heapC9, refC9], by simp [heapC9, refC9]⟩,
    hd.2.2.2.2.1, hd.2.2.2.2.2.2.1 []⟩

/-- Counterexample to C1: with ligation on, the constructor stores the shared
draw 1/2, yet the allele built by __ready__ has selectors 3/8 and 5/8 — fresh
independent draws, not the shared value.  (The shared value is used for the
discrete type choice instead.) -/
theorem ligation_selector_not_shared_cex :
    mutC1.ligation = true ∧
    mutC1.random_number = some (1 / 2) ∧
    (Mutamers.init [("A", 1), ("A", 2)] "Dunbrack" false ["SER"] true false 0
      rngC1 0).2 = 1 ∧
    ¬ ∀ e ∈ (mutC1.ready envC1 rngC1 1).1.allele, e.2 = (1 / 2 : ℚ) := by
  have h1 : pyInt 1 = 1 := by apply pyInt_eq_of <;> norm_num
  refine ⟨rfl, by norm_num [mutC1, Mutamers.init, rngC1], rfl, ?_⟩
  simp [mutC1, Mutamers.init, Mutamers.ready, readyOuter, readyInner, choice,
    odInsert, envC1, rngC1]
  norm_num [h1]

/-- C1 amended: with ligation enabled a single shared value is drawn once at
construction and redrawn only when the mutation operator fires (mate, __ready__
and a non-firing mutate leave it untouched), and every allele entry produced by
__ready__ or a firing mutate uses the shared value for its discrete type choice
(indexing the candidate-type list mutations + [res.type]), while each entry's
selector (second component) is an independent fresh draw per residue, not the
shared value. -/
theorem ligation_shared_type_choice :
    (∀ (specs : List ResKey) (lib : String) (avoid : Bool) (muts : List String)
        (hyd : Bool) (ip : ℚ) (rng : ℕ → ℚ) (k : ℕ),
      (Mutamers.init specs lib avoid muts true hyd ip rng k).1.random_number =
        some (rng k) ∧
      (Mutamers.init specs lib avoid muts true hyd ip rng k).2 = k + 1) ∧
    (∀ (m other : Mutamers) (p1 p2 : ℕ),
      (m.mate other p1 p2).1.random_number = m.random_number ∧
      (m.mate other p1 p2).2.random_number = other.random_number) ∧
    (∀ (m : Mutamers) (env : ResKey → List Residue) (rng : ℕ → ℚ) (k : ℕ),
      (m.ready env rng k).1.random_number = m.random_number) ∧
    (∀ (m : Mutamers) (p : ℚ) (rng : ℕ → ℚ) (k : ℕ),
      (¬ rng k < m.indpb → (m.mutate p rng k).1.random_number = m.random_number) ∧
      (rng k < m.indpb → m.ligation = true →
        (m.mutate p rng k).1.random_number = some (rng (k + 1)))) ∧
    (∀ (r : ℚ) (muts : List String) (ress : List Residue) (rng : ℕ → ℚ) (k : ℕ),
      (sharedEntries r muts ress rng k).map Prod.fst =
        ress.map (pickShared r muts) ∧
      (sharedEntries r muts ress rng k).map Prod.snd =
        (List.range ress.length).map (fun i => rng (k + i))) ∧
    (∀ (m : Mutamers) (env : ResKey → List Residue) (rng : ℕ → ℚ) (k : ℕ) (r : ℚ),
      m.random_number = some r → 0 < r →
      (m.ready env rng k).1.allele =
        m.allele ++ sharedEntries r m.mutations ((m.residues_arg.map env).flatten)
          rng k) ∧
    (∀ (m : Mutamers) (p : ℚ) (rng : ℕ → ℚ) (k : ℕ),
      rng k < m.indpb → m.ligation = true → 0 < rng (k + 1) →
      (m.mutate p rng k).1.allele =
        sharedEntries (rng (k + 1)) m.mutations (m.residues.map Prod.snd)
          rng (k + 2)) := by
  refine ⟨?_, ?_, ?_, ?_, ?_, ?_, ?_⟩
  · intro specs lib avoid muts hyd ip rng k
    exact ⟨rfl, rfl⟩
  · intro m other p1 p2
    rw [Mutamers.mate]
    by_cases hlig : m.ligation <;> simp [hlig]
  · intro m env rng k
    exact (readyOuter_eq env m.residues_arg m rng k).2.2.1
  · intro m p rng k
    constructor
    · intro hlt
      rw [Mutamers.mutate, if_neg hlt]
    · intro hlt hlig
      rw [Mutamers.mutate, if_pos hlt]
      simp [hlig]
  · intro r muts ress rng k
    exact ⟨sharedEntries_fst r muts ress rng k, sharedEntries_snd r muts ress rng k⟩
  · intro m env rng k r hrn hr
    rw [Mutamers.ready]
    rw [(readyOuter_eq env m.residues_arg m rng k).1, hrn,
      appendEntries_shared r m.mutations hr]
  · intro m p rng k hlt hlig hr
    rw [Mutamers.mutate, if_pos hlt]
    simp only [hlig, if_true]
    rw [show (m.residues.map (fun kv => kv.2)) = m.residues.map Prod.snd from rfl]
    rw [appendEntries_shared _ m.mutations hr]
    simp

/-- Witness for C1 amended: the constructor draw, the closed form of the
__ready__ allele under the shared value 1/2, and a firing mutate on a ligated
instance. -/
theorem ligation_shared_type_choice_witness :
    (mutC1.random_number = some (rngC1 0) ∧
      (Mutamers.init [("A", 1), ("A", 2)] "Dunbrack" false ["SER"] true false 0
        rngC1 0).2 = 0 + 1) ∧
    (mutC1.random_number = some (1 / 2) ∧ (0 : ℚ) < 1 / 2 ∧
      (mutC1.ready envC1 rngC1 1).1.allele =
        mutC1.allele ++ sharedEntries (1 / 2) mutC1.mutations
          ((mutC1.residues_arg.map envC1).flatten) rngC1 1) ∧
    (rngL 0 < mutLig.indpb ∧ mutLig.ligation = true ∧ 0 < rngL 1 ∧
      (mutLig.mutate 1 rngL 0).1.allele =
        sharedEntries (rngL 1) mutLig.mutations (mutLig.residues.map Prod.snd)
          rngL 2) := by
  have hrn : mutC1.random_number = some (1 / 2) := by
    norm_num [mutC1, Mutamers.init, rngC1]
  refine ⟨⟨(ligation_shared_type_choice.1 [("A", 1), ("A", 2)] "Dunbrack" false
      ["SER"] false 0 rngC1 0).1, (ligation_shared_type_choice.1
      [("A", 1), ("A", 2)] "Dunbrack" false ["SER"] false 0 rngC1 0).2⟩,
    ⟨hrn, by norm_num, ?_⟩, ⟨by norm_num [mutLig, mutC1, Mutamers.init, rngL],
      rfl, by norm_num [rngL], ?_⟩⟩
  · exact ligation_shared_type_choice.2.2.2.2.2.1 mutC1 envC1 rngC1 1 (1 / 2)
      hrn (by norm_num)
  · exact ligation_shared_type_choice.2.2.2.2.2.2 mutLig 1 rngL 0
      (by norm_num [mutLig, mutC1, Mutamers.init, rngL]) rfl (by norm_num [rngL])

end Gaudi
